import Mathlib

/-!
Shallow embedding of the updown HTTP file-sharing server (the fuller Go
variant): the slash-path arithmetic from Go's `path` package, an in-memory
filesystem, the multipart upload stream, the three request handlers, the
method router and the request mux.
-/

set_option autoImplicit false

/-- Split a character list at every slash, the way Go's path functions view
a path as slash-separated segments; the empty list yields one empty segment. -/
def splitSlash : List Char → List (List Char)
  | [] => [[]]
  | c :: rest =>
    if c = '/' then [] :: splitSlash rest
    else
      match splitSlash rest with
      | [] => [[c]]
      | seg :: segs => (c :: seg) :: segs

/-- One step of Go `path.Clean`: drop empty and `.` segments, let `..`
cancel a preceding name (vanishing at the root of a rooted path, piling up
at the front of a relative one), and push every other segment. -/
def cleanStep (rooted : Bool) (out : List (List Char)) (s : List Char) : List (List Char) :=
  if s = [] ∨ s = ['.'] then out
  else if s = ['.', '.'] then
    match out with
    | [] => if rooted then [] else [['.', '.']]
    | t :: out' => if t = ['.', '.'] then s :: out else out'
  else s :: out

/-- Process all segments of a path, accumulating the surviving segments in
reverse order. -/
def cleanStack (rooted : Bool) (out : List (List Char)) : List (List Char) → List (List Char)
  | [] => out
  | s :: rest => cleanStack rooted (cleanStep rooted out s) rest

/-- Interleave the segments with single slashes. -/
def joinSegs : List (List Char) → List Char
  | [] => []
  | [s] => s
  | s :: rest => s ++ '/' :: joinSegs rest

/-- Whether the path begins with a slash. -/
def isRooted (p : String) : Bool :=
  match p.data with
  | '/' :: _ => true
  | _ => false

/-- Go `path.Clean`: the shortest equivalent path, `.` when that is empty. -/
def goClean (p : String) : String :=
  let rooted := isRooted p
  let body := joinSegs ((cleanStack rooted [] (splitSlash p.data)).reverse)
  if rooted then String.mk ('/' :: body)
  else if body = [] then "." else String.mk body

/-- Go `path.Join` at two arguments, as every call site of the program uses
it: empty when both parts are empty, otherwise the cleaned slash-joint. -/
def goJoin (a b : String) : String :=
  if a = "" ∧ b = "" then ""
  else if a = "" then goClean b
  else goClean (a ++ "/" ++ b)

/-- Remove every trailing slash. -/
def dropTrailingSlashes (l : List Char) : List Char :=
  (l.reverse.dropWhile (fun c => c = '/')).reverse

/-- The characters after the last slash. -/
def lastSlashSeg (l : List Char) : List Char :=
  (l.reverse.takeWhile (fun c => c ≠ '/')).reverse

/-- Go `path.Base`: the last element of the path; `.` for the empty path,
`/` for a path of only slashes. -/
def goBase (p : String) : String :=
  if p = "" then "."
  else
    let stripped := dropTrailingSlashes p.data
    let last := lastSlashSeg stripped
    if last = [] then "/" else String.mk last

/-- Go `filepath.Abs` on a slash-separated system: clean an already rooted
path, join a relative one onto the working directory (whose lookup is
modelled as an explicit `cwd` argument and cannot fail). -/
def filepathAbs (cwd p : String) : String :=
  if isRooted p then goClean p else goJoin cwd p

/-- An entry of `os.ReadDir`: a name and whether it is a directory. -/
structure DirEntry where
  name : String
  isDir : Bool
deriving DecidableEq

/-- What `os.Open` hands back when it succeeds: either a regular file whose
bytes stream fully, or an object whose read fails after yielding a prefix —
a directory (`io.Copy` fails with `is a directory` after zero bytes) or a
file that turns unreadable mid-stream. -/
inductive FileObj
  | whole (bytes : List Nat)
  | failsAfter (written : List Nat)
deriving DecidableEq

/-- In-memory filesystem: openable objects at their paths, readable
directories with their listed entries, and the set of paths where
`os.Create` fails. -/
structure FileSystem where
  files : List (String × FileObj)
  dirs : List (String × List DirEntry)
  createFails : List String
deriving DecidableEq

/-- Model of `os.Open`: the openable object at the path, or `none` when the
open fails. -/
def fsRead (fs : FileSystem) (p : String) : Option FileObj :=
  (fs.files.find? (fun e => e.1 = p)).map (fun e => e.2)

/-- Model of `os.ReadDir`: the entries of the directory at the path, or
`none` when the read fails. -/
def fsReadDir (fs : FileSystem) (p : String) : Option (List DirEntry) :=
  (fs.dirs.find? (fun e => e.1 = p)).map (fun e => e.2)

/-- The filesystem after a file at the path has been created (or truncated)
and filled with the given bytes; the newest binding shadows older ones. -/
def setFile (fs : FileSystem) (p : String) (c : List Nat) : FileSystem :=
  { fs with files := (p, FileObj.whole c) :: fs.files }

/-- One part of a multipart body: its form field name, its declared file
name, its bytes, and, when `copyErr` is set, the prefix that reaches the
destination before `io.Copy` of its body fails. -/
structure MPart where
  formName : String
  fileName : String
  body : List Nat
  copyErr : Option (List Nat)
deriving DecidableEq

/-- A parsed multipart stream: the parts `Reader.NextPart` yields in order;
after them it reports `io.EOF` when `truncated` is false and a non-EOF
parse error (malformed or cut-off body) when `truncated` is true. -/
structure MultipartBody where
  parts : List MPart
  truncated : Bool
deriving DecidableEq

/-- An HTTP request as the handlers consume it: method, URL path, parsed
query (Go's `url.Values`), and the multipart view of the body —
`none` when `Request.MultipartReader` fails (not a multipart request). -/
structure Request where
  method : String
  path : String
  query : List (String × List String)
  multipartBody : Option MultipartBody
deriving DecidableEq

/-- A link target as the listing builds one with `addQueryToPath`: a URL
path plus its query parameters (percent-encoding is not modelled; URLs are
kept structural). -/
structure UrlRef where
  path : String
  query : List (String × String)
deriving DecidableEq

/-- A row of the listing template: link target, visible name, and the type
column (`"<DIR>"` or empty). -/
structure FileEntry where
  url : UrlRef
  name : String
  typ : String
deriving DecidableEq

/-- What a handler wrote into the response body. A rendered listing page is
kept structural (the path shown plus the entry rows the template iterates);
a downloaded file is its byte stream. -/
inductive Body
  | empty
  | text (s : String)
  | bytes (b : List Nat)
  | page (fullPath : String) (files : List FileEntry)
deriving DecidableEq

/-- The response as observed by the client: the status sent with the first
write, the headers, the body, and any status code passed to a `WriteHeader`
that arrives only after the body was already written (net/http ignores it). -/
structure Response where
  status : Nat
  headers : List (String × String)
  body : Body
  lateWriteHeader : Option Nat
deriving DecidableEq

/-- Model of net/http's `Error`: plain-text headers, the given status, and
the message as body (the trailing newline `Fprintln` appends is elided). -/
def httpError (msg : String) (code : Nat) : Response :=
  { status := code
    headers := [("Content-Type", "text/plain; charset=utf-8"),
                ("X-Content-Type-Options", "nosniff")]
    body := Body.text msg
    lateWriteHeader := none }

/-- Model of net/http's `NotFound`. -/
def httpNotFound : Response :=
  httpError "404 page not found" 404

/-- Model of net/http's `Error` invoked on a writer that already carries
earlier header additions and `written` streamed body bytes. With nothing
yet streamed, no status line is out, so the error status and blank-message
body take effect while the earlier header additions stay recorded (the
header list records the Add/Set operations in order; Go's key
canonicalization, under which the later `Content-Type` set would override
the earlier add, is not modelled). Once a first body byte is out, the 200
status and the streamed prefix stand and the error's `WriteHeader` is the
ignored late call. -/
def httpErrorAfter (hdrs : List (String × String)) (written : List Nat)
    (msg : String) (code : Nat) : Response :=
  if written = [] then
    { status := code
      headers := hdrs ++ [("Content-Type", "text/plain; charset=utf-8"),
                          ("X-Content-Type-Options", "nosniff")]
      body := Body.text msg
      lateWriteHeader := none }
  else
    { status := 200
      headers := hdrs
      body := Body.bytes written
      lateWriteHeader := some code }

/-- Model of net/http's `Redirect` as the upload handler invokes it (on a
POST request net/http writes no hyperlink body): a Location header and the
given status. -/
def httpRedirect (target : String) (code : Nat) : Response :=
  { status := code
    headers := [("Location", target)]
    body := Body.empty
    lateWriteHeader := none }

/-- The bare `WriteHeader(405)` response of the method router. -/
def methodNotAllowed : Response :=
  { status := 405
    headers := []
    body := Body.empty
    lateWriteHeader := none }

/-- The result of running one handler: a response, or a runtime panic
(a nil-pointer dereference) that aborts it with nothing written. -/
inductive HandlerResult
  | ok (resp : Response)
  | panicked
deriving DecidableEq

/-- `getQueryValueOrDefault` of the source: the first value of the key in
the query, or the fallback when the key is missing, has no values, or its
first value is empty. -/
def getQueryValueOrDefault (query : List (String × List String)) (key fallback : String) : String :=
  match (query.find? (fun e => e.1 = key)).map (fun e => e.2) with
  | none => fallback
  | some [] => fallback
  | some (v :: _) => if v = "" then fallback else v

/-- `addQueryToPath` of the source, at the structural URL level: parse the
path (the program only passes `/` and `/download`, which always parse) and
set the query parameters. -/
def addQueryToPath (urlPath : String) (query : List (String × String)) : UrlRef :=
  ⟨urlPath, query⟩


/-- `handleRootGet` of the source: on the `/` path, take the navigation
path from `p` (default `.`), resolve the serve directory joint to an
absolute path, read the directory (HTTP 500 on failure), and render the
page: a parent `../` entry first, then one row per entry in filesystem
order — directories named `name + "/"`, typed `<DIR>`, linking to `/`;
files named plainly, untyped, linking to `/download`. Any other URL path
gets net/http's NotFound. -/
def handleRootGet (cwd serveDir : String) (fs : FileSystem) (urlPath : String)
    (query : List (String × List String)) : Response :=
  if urlPath = "/" then
    let servePathRoot := getQueryValueOrDefault query "p" "."
    let fullPath := filepathAbs cwd (goJoin serveDir servePathRoot)
    match fsReadDir fs fullPath with
    | none => httpError "" 500
    | some entries =>
      let parent : FileEntry :=
        ⟨addQueryToPath "/" [("p", goJoin servePathRoot "..")], "../", "<DIR>"⟩
      let fileEntries := entries.foldl
        (fun acc entry =>
          acc ++ [if entry.isDir then
                    ⟨addQueryToPath "/" [("p", goJoin servePathRoot entry.name)],
                      entry.name ++ "/", "<DIR>"⟩
                  else
                    ⟨addQueryToPath "/download" [("p", goJoin servePathRoot entry.name)],
                      entry.name, ""⟩])
        [parent]
      { status := 200
        headers := []
        body := Body.page fullPath fileEntries
        lateWriteHeader := none }
  else httpNotFound

/-- `handleDownloadGet` of the source: join the serve directory with the
navigation path (no absolute resolution), open the file (HTTP 500 on
failure), add octet-stream and attachment headers naming the base of the
joined path, then `io.Copy` the opened object to the writer: a full copy is
followed by the late `WriteHeader(204)` attempt; a copy failure (for
instance a directory target) falls into `http.Error(w, "", 500)` on the
already-started response. -/
def handleDownloadGet (serveDir : String) (fs : FileSystem)
    (query : List (String × List String)) : Response :=
  let inputPath := getQueryValueOrDefault query "p" "."
  let fsPath := goJoin serveDir inputPath
  match fsRead fs fsPath with
  | none => httpError "" 500
  | some obj =>
    match obj with
    | FileObj.failsAfter written =>
      httpErrorAfter
        [("content-type", "application/octet-stream"),
         ("content-disposition",
           "attachment; filename=\"" ++ goBase fsPath ++ "\"")]
        written "" 500
    | FileObj.whole content =>
      { status := 200
        headers := [("content-type", "application/octet-stream"),
                    ("content-disposition",
                      "attachment; filename=\"" ++ goBase fsPath ++ "\"")]
        body := Body.bytes content
        lateWriteHeader := some 204 }

/-- What `readPart` reports back to the upload loop: `res ok fs` for a nil
error (`ok` telling whether the part qualified and was stored), `err fs`
for a non-nil error. -/
inductive ReadPartRes
  | res (ok : Bool) (fs : FileSystem)
  | err (fs : FileSystem)
deriving DecidableEq

/-- `readPart` of the upload handler: a part whose form field name is not
`file` is skipped without touching the filesystem; otherwise the file at
`join(outputDir, base(declared file name))` is created (error when the
filesystem refuses) and the part's bytes are copied into it (on a copy
error the prefix written so far remains). -/
def readPart (outputDir : String) (fs : FileSystem) (p : MPart) : ReadPartRes :=
  if p.formName ≠ "file" then ReadPartRes.res false fs
  else
    let fileName := goBase p.fileName
    let outputPath := goJoin outputDir fileName
    if outputPath ∈ fs.createFails then ReadPartRes.err fs
    else
      match p.copyErr with
      | some written => ReadPartRes.err (setFile fs outputPath written)
      | none => ReadPartRes.res true (setFile fs outputPath p.body)

/-- The `for` loop of `handleUploadPost` over the stream's parts. When
`NextPart` reports `io.EOF` the loop answers HTTP 400; when it reports any
other error the code skips the nil check and passes the nil part to
`readPart`, whose `part.FormName()` dereferences the nil pointer — the
handler panics. A `readPart` error answers HTTP 400; the first qualifying
part breaks the loop, which then redirects (302) to `/`. -/
def uploadLoop (outputDir : String) (fs : FileSystem) :
    List MPart → Bool → HandlerResult × FileSystem
  | [], true => (HandlerResult.panicked, fs)
  | [], false => (HandlerResult.ok (httpError "" 400), fs)
  | p :: rest, tr =>
    match readPart outputDir fs p with
    | ReadPartRes.res true fs' => (HandlerResult.ok (httpRedirect "/" 302), fs')
    | ReadPartRes.res false fs' => uploadLoop outputDir fs' rest tr
    | ReadPartRes.err fs' => (HandlerResult.ok (httpError "" 400), fs')

/-- `handleUploadPost` of the source: when `MultipartReader` fails the
handler answers HTTP 400 with the message `Unable to read multipart form
data`; otherwise it runs the part loop. -/
def handleUploadPost (outputDir : String) (fs : FileSystem)
    (mb : Option MultipartBody) : HandlerResult × FileSystem :=
  match mb with
  | none => (HandlerResult.ok (httpError "Unable to read multipart form data" 400), fs)
  | some body => uploadLoop outputDir fs body.parts body.truncated

/-- A handler takes the request and the filesystem and yields a result and
the possibly changed filesystem. -/
abbrev Handler := Request → FileSystem → HandlerResult × FileSystem

/-- The `ByMethod` pair of optional handlers of the source. -/
structure ByMethod where
  get : Option Handler
  post : Option Handler

/-- `routeByMethod` of the source: a GET goes to the GET handler when one
is set, a POST to the POST handler when one is set; every other case falls
through to a bare `WriteHeader(405)`. -/
def routeByMethod (b : ByMethod) : Handler := fun r fs =>
  if r.method = "GET" then
    match b.get with
    | some h => h r fs
    | none => (HandlerResult.ok methodNotAllowed, fs)
  else if r.method = "POST" then
    match b.post with
    | some h => h r fs
    | none => (HandlerResult.ok methodNotAllowed, fs)
  else (HandlerResult.ok methodNotAllowed, fs)

/-- The served mux of `main`: `/upload` is POST-only upload, `/download`
is GET-only download, and the `/` pattern (every other path) is GET-only
listing. -/
def app (cwd serveDir outputDir : String) : Handler := fun req fs =>
  if req.path = "/upload" then
    routeByMethod ⟨none, some (fun r fs => handleUploadPost outputDir fs r.multipartBody)⟩ req fs
  else if req.path = "/download" then
    routeByMethod ⟨some (fun r fs => (HandlerResult.ok (handleDownloadGet serveDir fs r.query), fs)), none⟩ req fs
  else
    routeByMethod ⟨some (fun r fs => (HandlerResult.ok (handleRootGet cwd serveDir fs r.path r.query), fs)), none⟩ req fs

/-! Helper lemmas shared by the claim theorems. -/

theorem readPart_skip (od : String) (fs : FileSystem) (p : MPart)
    (h : p.formName ≠ "file") : readPart od fs p = ReadPartRes.res false fs := by
  unfold readPart
  rw [if_pos h]

theorem readPart_store (od : String) (fs : FileSystem) (p : MPart)
    (hq : p.formName = "file")
    (hcreate : goJoin od (goBase p.fileName) ∉ fs.createFails)
    (hcopy : p.copyErr = none) :
    readPart od fs p =
      ReadPartRes.res true (setFile fs (goJoin od (goBase p.fileName)) p.body) := by
  unfold readPart
  rw [if_neg (by simp [hq]), if_neg hcreate, hcopy]

theorem uploadLoop_skip (od : String) (fs : FileSystem) (pre l : List MPart) (tr : Bool)
    (h : ∀ p ∈ pre, p.formName ≠ "file") :
    uploadLoop od fs (pre ++ l) tr = uploadLoop od fs l tr := by
  induction pre generalizing fs with
  | nil => rfl
  | cons p rest ih =>
    have hp : p.formName ≠ "file" := h p (by simp)
    simp only [List.cons_append, uploadLoop, readPart_skip od fs p hp]
    exact ih fs (fun x hx => h x (by simp [hx]))

theorem fsRead_setFile (fs : FileSystem) (p : String) (c : List Nat) :
    fsRead (setFile fs p c) p = some (FileObj.whole c) := by
  simp [fsRead, setFile]

theorem foldl_append_map {α β : Type} (f : α → β) (l : List α) (init : List β) :
    l.foldl (fun acc e => acc ++ [f e]) init = init ++ l.map f := by
  induction l generalizing init with
  | nil => simp
  | cons a l ih => simp [ih]

/-- C7: for every request reaching the method router, a GET goes to the GET
handler when one is set, a POST to the POST handler when one is set, and
every other case (other method, or that method's handler unset) yields HTTP
405 with an empty body and invokes no handler (the result does not depend
on the handler pair). -/
theorem route_by_method_spec (g p : Option Handler) (req : Request) (fs : FileSystem) :
    routeByMethod ⟨g, p⟩ req fs =
      (if req.method = "GET" then
        (g.map (fun h => h req fs)).getD (HandlerResult.ok methodNotAllowed, fs)
      else if req.method = "POST" then
        (p.map (fun h => h req fs)).getD (HandlerResult.ok methodNotAllowed, fs)
      else (HandlerResult.ok methodNotAllowed, fs)) ∧
    methodNotAllowed =
      { status := 405, headers := [], body := Body.empty, lateWriteHeader := none } := by
  refine ⟨?_, rfl⟩
  unfold routeByMethod
  rcases g with _ | hg <;> rcases p with _ | hp <;> rfl

/-- C6 fails as stated: the default `p = .` against a serve root of `.`
opens the serve directory itself — `os.Open` succeeds — yet `io.Copy` fails
at once, so nothing streams, the late call is the error's `WriteHeader`,
not 204, and the wire status is the error 500 while the attachment header
is already recorded. -/
theorem download_dir_open_succeeds_but_no_stream :
    handleDownloadGet "." ⟨[(".", FileObj.failsAfter [])], [], []⟩ [] =
      { status := 500
        headers := [("content-type", "application/octet-stream"),
                    ("content-disposition", "attachment; filename=\".\""),
                    ("Content-Type", "text/plain; charset=utf-8"),
                    ("X-Content-Type-Options", "nosniff")]
        body := Body.text ""
        lateWriteHeader := none } ∧
    fsRead ⟨[(".", FileObj.failsAfter [])], [], []⟩
      (goJoin "." (getQueryValueOrDefault [] "p" ".")) ≠ none ∧
    (handleDownloadGet "." ⟨[(".", FileObj.failsAfter [])], [], []⟩ []).status ≠ 200 ∧
    (handleDownloadGet "." ⟨[(".", FileObj.failsAfter [])], [], []⟩ []).lateWriteHeader ≠
      some 204 := by
  refine ⟨by decide, by decide, by decide, by decide⟩

/-- C6 amended: every GET `/download` request resolves
`fsPath = join(ServeRoot, p)`; an open failure yields HTTP 500 with empty
body and no streamed bytes; a successful open adds the octet-stream and
attachment headers (filename the base of `fsPath`) and then: a full copy
yields the entire file bytes with a late attempt to set status 204, while a
copy failure falls into `http.Error` 500 — taking effect with blank body
(the attachment header already recorded) when nothing streamed, and left as
an ignored late `WriteHeader(500)` behind the 200 and the partial bytes
otherwise. -/
theorem download_open_then_copy_contract (serveDir : String) (fs : FileSystem)
    (query : List (String × List String)) :
    handleDownloadGet serveDir fs query =
      match fsRead fs (goJoin serveDir (getQueryValueOrDefault query "p" ".")) with
      | none => httpError "" 500
      | some (FileObj.whole content) =>
        { status := 200
          headers := [("content-type", "application/octet-stream"),
                      ("content-disposition",
                        "attachment; filename=\"" ++
                          goBase (goJoin serveDir (getQueryValueOrDefault query "p" ".")) ++ "\"")]
          body := Body.bytes content
          lateWriteHeader := some 204 }
      | some (FileObj.failsAfter written) =>
        if written = [] then
          { status := 500
            headers := [("content-type", "application/octet-stream"),
                        ("content-disposition",
                          "attachment; filename=\"" ++
                            goBase (goJoin serveDir (getQueryValueOrDefault query "p" ".")) ++ "\""),
                        ("Content-Type", "text/plain; charset=utf-8"),
                        ("X-Content-Type-Options", "nosniff")]
            body := Body.text ""
            lateWriteHeader := none }
        else
          { status := 200
            headers := [("content-type", "application/octet-stream"),
                        ("content-disposition",
                          "attachment; filename=\"" ++
                            goBase (goJoin serveDir (getQueryValueOrDefault query "p" ".")) ++ "\"")]
            body := Body.bytes written
            lateWriteHeader := some 500 } := by
  simp only [handleDownloadGet]
  rcases fsRead fs (goJoin serveDir (getQueryValueOrDefault query "p" ".")) with _ | (_ | w)
  · rfl
  · rfl
  · simp only [httpErrorAfter]
    split <;> rfl

/-- C5: a POST `/upload` whose well-formed multipart body holds no part with
form field name `file` answers HTTP 400 with empty body and leaves the
filesystem untouched. -/
theorem upload_no_file_part_400_no_write (outputDir : String) (fs : FileSystem)
    (parts : List MPart) (h : ∀ p ∈ parts, p.formName ≠ "file") :
    handleUploadPost outputDir fs (some ⟨parts, false⟩) =
      (HandlerResult.ok (httpError "" 400), fs) := by
  show uploadLoop outputDir fs parts false = _
  have := uploadLoop_skip outputDir fs parts [] false h
  rw [List.append_nil] at this
  rw [this]
  rfl

/-- Witness for C5 at a concrete stream of two non-`file` parts. -/
theorem upload_no_file_part_400_no_write_case :
    handleUploadPost "out" ⟨[("a", FileObj.whole [1])], [], []⟩
        (some ⟨[⟨"name", "", [2], none⟩, ⟨"note", "x.txt", [3], none⟩], false⟩) =
      (HandlerResult.ok (httpError "" 400), ⟨[("a", FileObj.whole [1])], [], []⟩) :=
  upload_no_file_part_400_no_write "out" ⟨[("a", FileObj.whole [1])], [], []⟩
    [⟨"name", "", [2], none⟩, ⟨"note", "x.txt", [3], none⟩] (by decide)

/-- C1: a POST `/upload` whose multipart body has a first part with form
field name `file` (the environment granting its create and copy) writes the
part's bytes to `join(OutputDirectory, base(declared filename))`, reads no
further part (the result is the same for every continuation of the stream),
and answers HTTP 302 to `/`. -/
theorem upload_first_file_part_written_and_redirect
    (outputDir : String) (fs : FileSystem) (pre : List MPart) (q : MPart)
    (rest : List MPart) (tr : Bool)
    (hpre : ∀ p ∈ pre, p.formName ≠ "file")
    (hq : q.formName = "file")
    (hcopy : q.copyErr = none)
    (hcreate : goJoin outputDir (goBase q.fileName) ∉ fs.createFails) :
    handleUploadPost outputDir fs (some ⟨pre ++ q :: rest, tr⟩) =
      (HandlerResult.ok (httpRedirect "/" 302),
        setFile fs (goJoin outputDir (goBase q.fileName)) q.body) := by
  show uploadLoop outputDir fs (pre ++ q :: rest) tr = _
  rw [uploadLoop_skip outputDir fs pre (q :: rest) tr hpre]
  simp only [uploadLoop, readPart_store outputDir fs q hq hcreate hcopy]

/-- Witness for C1: a leading non-`file` part is skipped, `hello` is stored
under the base of the client path, and the trailing part stays unread. -/
theorem upload_first_file_part_written_and_redirect_case :
    handleUploadPost "out" ⟨[], [], []⟩
        (some ⟨[⟨"other", "", [9], none⟩,
                ⟨"file", "sub/hello.txt", [104, 101, 108, 108, 111], none⟩,
                ⟨"file", "late.txt", [1], none⟩], true⟩) =
      (HandlerResult.ok (httpRedirect "/" 302),
        setFile ⟨[], [], []⟩ "out/hello.txt" [104, 101, 108, 108, 111]) := by
  have := upload_first_file_part_written_and_redirect "out" ⟨[], [], []⟩
    [⟨"other", "", [9], none⟩] ⟨"file", "sub/hello.txt", [104, 101, 108, 108, 111], none⟩
    [⟨"file", "late.txt", [1], none⟩] true (by decide) rfl rfl (by decide)
  simpa using this

/-- C10 (the code as it stands): a multipart stream whose first `NextPart`
call reports a non-EOF error makes the upload handler pass the nil part to
`readPart`, which dereferences it — the handler panics instead of answering
HTTP 400. -/
theorem upload_next_part_error_panics :
    app "/" "." "." ⟨"POST", "/upload", [], some ⟨[], true⟩⟩ ⟨[], [], []⟩ =
      (HandlerResult.panicked, (⟨[], [], []⟩ : FileSystem)) := by
  decide

theorem getQuery_p_default_ne_empty (q : List (String × List String)) :
    getQueryValueOrDefault q "p" "." ≠ "" := by
  unfold getQueryValueOrDefault
  split
  · decide
  · decide
  · split
    · decide
    · assumption

theorem getQuery_canonical (q : List (String × List String)) :
    getQueryValueOrDefault [("p", [getQueryValueOrDefault q "p" "."])] "p" "." =
      getQueryValueOrDefault q "p" "." := by
  have h := getQuery_p_default_ne_empty q
  have hv : getQueryValueOrDefault [("p", [getQueryValueOrDefault q "p" "."])] "p" "." =
      if getQueryValueOrDefault q "p" "." = "" then "."
      else getQueryValueOrDefault q "p" "." := rfl
  rw [hv, if_neg h]

/-- C8: on both GET `/` and GET `/download` the effective navigation path is
the first `p` query value, with `.` substituted when `p` is absent, has no
values, or has an empty first value; both handlers behave as if the query
carried exactly that value. -/
theorem nav_path_first_value_or_default (cwd serveDir : String) (fs : FileSystem)
    (query : List (String × List String)) :
    (getQueryValueOrDefault query "p" "." =
      match (query.find? (fun e => e.1 = "p")).map (fun e => e.2) with
      | none => "."
      | some [] => "."
      | some (v :: _) => if v = "" then "." else v) ∧
    handleRootGet cwd serveDir fs "/" query =
      handleRootGet cwd serveDir fs "/" [("p", [getQueryValueOrDefault query "p" "."])] ∧
    handleDownloadGet serveDir fs query =
      handleDownloadGet serveDir fs [("p", [getQueryValueOrDefault query "p" "."])] := by
  refine ⟨rfl, ?_, ?_⟩
  · simp only [handleRootGet, getQuery_canonical]
  · simp only [handleDownloadGet, getQuery_canonical]

/-- C2: for every `p` naming a readable directory, the rendered listing is
exactly a parent `../` entry (type `<DIR>`, URL `/` with `p = join(p, "..")`)
followed by one entry per child in filesystem order — a directory child as
`name + "/"`, type `<DIR>`, URL `/` with `p = join(p, name)`; a file child
as `name`, no type, URL `/download` with `p = join(p, name)`. -/
theorem listing_entries_parent_then_children
    (cwd serveDir : String) (fs : FileSystem) (query : List (String × List String))
    (entries : List DirEntry)
    (h : fsReadDir fs
        (filepathAbs cwd (goJoin serveDir (getQueryValueOrDefault query "p" "."))) =
      some entries) :
    handleRootGet cwd serveDir fs "/" query =
      { status := 200
        headers := []
        body := Body.page
          (filepathAbs cwd (goJoin serveDir (getQueryValueOrDefault query "p" ".")))
          (⟨addQueryToPath "/" [("p", goJoin (getQueryValueOrDefault query "p" ".") "..")],
              "../", "<DIR>"⟩ ::
            entries.map (fun entry =>
              if entry.isDir then
                ⟨addQueryToPath "/" [("p", goJoin (getQueryValueOrDefault query "p" ".") entry.name)],
                  entry.name ++ "/", "<DIR>"⟩
              else
                ⟨addQueryToPath "/download" [("p", goJoin (getQueryValueOrDefault query "p" ".") entry.name)],
                  entry.name, ""⟩))
        lateWriteHeader := none } := by
  simp [handleRootGet, h, foldl_append_map]

/-- Witness for C2 at a directory with one subdirectory and one file. -/
theorem listing_entries_parent_then_children_case :
    handleRootGet "/srv" "." ⟨[], [("/srv/sub", [⟨"a", true⟩, ⟨"b.txt", false⟩])], []⟩
        "/" [("p", ["sub"])] =
      { status := 200
        headers := []
        body := Body.page "/srv/sub"
          (⟨addQueryToPath "/" [("p", goJoin "sub" "..")], "../", "<DIR>"⟩ ::
            [DirEntry.mk "a" true, DirEntry.mk "b.txt" false].map (fun entry =>
              if entry.isDir then
                ⟨addQueryToPath "/" [("p", goJoin "sub" entry.name)], entry.name ++ "/", "<DIR>"⟩
              else
                ⟨addQueryToPath "/download" [("p", goJoin "sub" entry.name)], entry.name, ""⟩))
        lateWriteHeader := none } :=
  listing_entries_parent_then_children "/srv" "." ⟨[], [("/srv/sub", [⟨"a", true⟩, ⟨"b.txt", false⟩])], []⟩
    [("p", ["sub"])] [⟨"a", true⟩, ⟨"b.txt", false⟩] (by decide)

/-- C9: each of listing and download reads the filesystem only at
`join(ServeRoot, NavigationPath)` — the listing after resolving that joint
to an absolute path, the download at the joint itself: two filesystems that
agree there are indistinguishable to the handlers. -/
theorem handlers_access_only_joined_path
    (cwd serveDir : String) (fs fs' : FileSystem) (query : List (String × List String))
    (hdir : fsReadDir fs
        (filepathAbs cwd (goJoin serveDir (getQueryValueOrDefault query "p" "."))) =
      fsReadDir fs'
        (filepathAbs cwd (goJoin serveDir (getQueryValueOrDefault query "p" ".")))) 
    (hfile : fsRead fs (goJoin serveDir (getQueryValueOrDefault query "p" ".")) =
      fsRead fs' (goJoin serveDir (getQueryValueOrDefault query "p" "."))) :
    handleRootGet cwd serveDir fs "/" query = handleRootGet cwd serveDir fs' "/" query ∧
    handleDownloadGet serveDir fs query = handleDownloadGet serveDir fs' query := by
  constructor
  · simp only [handleRootGet, hdir]
  · simp only [handleDownloadGet, hfile]

/-- Witness for C9: two filesystems differing away from the accessed joint
give identical listing and download responses. -/
theorem handlers_access_only_joined_path_case :
    handleRootGet "/s" "." ⟨[(".", FileObj.whole [7])], [("/s", [⟨"x", false⟩])], []⟩ "/" [] =
      handleRootGet "/s" "." ⟨[(".", FileObj.whole [7]), ("other", FileObj.whole [9])], [("/s", [⟨"x", false⟩]), ("z", [])], ["w"]⟩ "/" [] ∧
    handleDownloadGet "." ⟨[(".", FileObj.whole [7])], [("/s", [⟨"x", false⟩])], []⟩ [] =
      handleDownloadGet "." ⟨[(".", FileObj.whole [7]), ("other", FileObj.whole [9])], [("/s", [⟨"x", false⟩]), ("z", [])], ["w"]⟩ [] :=
  handlers_access_only_joined_path "/s" "."
    ⟨[(".", FileObj.whole [7])], [("/s", [⟨"x", false⟩])], []⟩
    ⟨[(".", FileObj.whole [7]), ("other", FileObj.whole [9])], [("/s", [⟨"x", false⟩]), ("z", [])], ["w"]⟩
    [] (by decide) (by decide)

theorem rootGet_shapes (cwd serveDir : String) (fs : FileSystem) (urlPath : String)
    (query : List (String × List String)) :
    handleRootGet cwd serveDir fs urlPath query = httpError "" 500 ∨
    handleRootGet cwd serveDir fs urlPath query = httpNotFound ∨
    (handleRootGet cwd serveDir fs urlPath query).status = 200 := by
  simp only [handleRootGet]
  split
  · split
    · exact Or.inl rfl
    · exact Or.inr (Or.inr rfl)
  · exact Or.inr (Or.inl rfl)

theorem download_shapes (serveDir : String) (fs : FileSystem)
    (query : List (String × List String)) :
    handleDownloadGet serveDir fs query = httpError "" 500 ∨
    (handleDownloadGet serveDir fs query).status = 200 ∨
    ((handleDownloadGet serveDir fs query).status = 500 ∧
      (handleDownloadGet serveDir fs query).body = Body.text "") := by
  simp only [handleDownloadGet]
  rcases fsRead fs (goJoin serveDir (getQueryValueOrDefault query "p" ".")) with _ | (_ | w)
  · exact Or.inl rfl
  · exact Or.inr (Or.inl rfl)
  · simp only [httpErrorAfter]
    split
    · exact Or.inr (Or.inr ⟨rfl, rfl⟩)
    · exact Or.inr (Or.inl rfl)

theorem uploadLoop_outcomes (od : String) (fs : FileSystem) (parts : List MPart) (tr : Bool) :
    (uploadLoop od fs parts tr).1 = HandlerResult.panicked ∨
    (uploadLoop od fs parts tr).1 = HandlerResult.ok (httpError "" 400) ∨
    (uploadLoop od fs parts tr).1 = HandlerResult.ok (httpRedirect "/" 302) := by
  induction parts generalizing fs with
  | nil => cases tr <;> simp [uploadLoop]
  | cons p rest ih =>
    simp only [uploadLoop]
    rcases hr : readPart od fs p with ⟨ok, fs'⟩ | fs'
    · cases ok
      · simpa using ih fs'
      · simp
    · simp

/-- C4 fails as stated: the POST `/upload` whose multipart reader cannot be
obtained answers HTTP 400 with the fixed message `Unable to read multipart
form data` — an error response whose body is neither empty nor blank. -/
theorem upload_bad_multipart_leaks_message :
    (app "/" "." "." ⟨"POST", "/upload", [], none⟩ ⟨[], [], []⟩).1 =
      HandlerResult.ok (httpError "Unable to read multipart form data" 400) ∧
    400 ≤ (httpError "Unable to read multipart form data" 400).status ∧
    (httpError "Unable to read multipart form data" 400).body ≠ Body.text "" ∧
    (httpError "Unable to read multipart form data" 400).body ≠ Body.empty := by
  refine ⟨?_, by decide, by decide, by decide⟩
  decide

/-- C4 amended: every error response of every handler carries one of a
fixed set of constant bodies — blank for the 500s, the routing 405's and
most upload 400s, the fixed multipart-failure message for the remaining
400, and the fixed not-found text for the 404 — never any dynamic error
detail. -/
theorem error_responses_fixed_bodies
    (cwd serveDir outputDir : String) (fs : FileSystem) (req : Request) (r : Response)
    (h : (app cwd serveDir outputDir req fs).1 = HandlerResult.ok r)
    (hs : 400 ≤ r.status) :
    r.body = Body.text "" ∨ r.body = Body.empty ∨
    (r.status = 400 ∧ r.body = Body.text "Unable to read multipart form data") ∨
    (r.status = 404 ∧ r.body = Body.text "404 page not found") := by
  by_cases hup : req.path = "/upload"
  · by_cases hget : req.method = "GET"
    · have happ : (app cwd serveDir outputDir req fs).1 = HandlerResult.ok methodNotAllowed := by
        simp [app, routeByMethod, hup, hget]
      rw [happ] at h
      injection h with h2
      subst h2
      exact Or.inr (Or.inl rfl)
    · by_cases hpost : req.method = "POST"
      · have happ : (app cwd serveDir outputDir req fs).1 =
            (handleUploadPost outputDir fs req.multipartBody).1 := by
          simp [app, routeByMethod, hup, hget, hpost]
        rw [happ] at h
        rcases hmb : req.multipartBody with _ | mb
        · rw [hmb] at h
          simp only [handleUploadPost] at h
          injection h with h2
          subst h2
          exact Or.inr (Or.inr (Or.inl ⟨rfl, rfl⟩))
        · rw [hmb] at h
          simp only [handleUploadPost] at h
          rcases uploadLoop_outcomes outputDir fs mb.parts mb.truncated with ho | ho | ho
          · rw [ho] at h
            exact HandlerResult.noConfusion h
          · rw [ho] at h
            injection h with h2
            subst h2
            exact Or.inl rfl
          · rw [ho] at h
            injection h with h2
            subst h2
            exact absurd hs (by decide)
      · have happ : (app cwd serveDir outputDir req fs).1 = HandlerResult.ok methodNotAllowed := by
          simp [app, routeByMethod, hup, hget, hpost]
        rw [happ] at h
        injection h with h2
        subst h2
        exact Or.inr (Or.inl rfl)
  · by_cases hdl : req.path = "/download"
    · by_cases hget : req.method = "GET"
      · have happ : (app cwd serveDir outputDir req fs).1 =
            HandlerResult.ok (handleDownloadGet serveDir fs req.query) := by
          simp [app, routeByMethod, hup, hdl, hget]
        rw [happ] at h
        injection h with h2
        subst h2
        rcases download_shapes serveDir fs req.query with hd | hd | ⟨hd1, hd2⟩
        · rw [hd]
          exact Or.inl rfl
        · rw [hd] at hs
          omega
        · exact Or.inl hd2
      · have happ : (app cwd serveDir outputDir req fs).1 = HandlerResult.ok methodNotAllowed := by
          simp [app, routeByMethod, hup, hdl, hget]
        rw [happ] at h
        injection h with h2
        subst h2
        exact Or.inr (Or.inl rfl)
    · by_cases hget : req.method = "GET"
      · have happ : (app cwd serveDir outputDir req fs).1 =
            HandlerResult.ok (handleRootGet cwd serveDir fs req.path req.query) := by
          simp [app, routeByMethod, hup, hdl, hget]
        rw [happ] at h
        injection h with h2
        subst h2
        rcases rootGet_shapes cwd serveDir fs req.path req.query with hd | hd | hd
        · rw [hd]
          exact Or.inl rfl
        · rw [hd]
          exact Or.inr (Or.inr (Or.inr ⟨rfl, rfl⟩))
        · rw [hd] at hs
          omega
      · have happ : (app cwd serveDir outputDir req fs).1 = HandlerResult.ok methodNotAllowed := by
          simp [app, routeByMethod, hup, hdl, hget]
        rw [happ] at h
        injection h with h2
        subst h2
        exact Or.inr (Or.inl rfl)

/-- Witness for the amended C4 at a concrete error response: PUT on
`/download` draws the empty-bodied 405. -/
theorem error_responses_fixed_bodies_case :
    methodNotAllowed.body = Body.text "" ∨ methodNotAllowed.body = Body.empty ∨
    (methodNotAllowed.status = 400 ∧
      methodNotAllowed.body = Body.text "Unable to read multipart form data") ∨
    (methodNotAllowed.status = 404 ∧
      methodNotAllowed.body = Body.text "404 page not found") :=
  error_responses_fixed_bodies "/" "." "." ⟨[], [], []⟩
    ⟨"PUT", "/download", [], none⟩ methodNotAllowed (by decide) (by decide)

theorem string_mk_data (b : String) : String.mk b.data = b := by
  cases b
  rfl

theorem splitSlash_ne_nil (l : List Char) : splitSlash l ≠ [] := by
  cases l with
  | nil => simp [splitSlash]
  | cons c rest =>
    simp only [splitSlash]
    split
    · simp
    · split <;> simp

theorem splitSlash_append (x y : List Char) :
    splitSlash (x ++ '/' :: y) = splitSlash x ++ splitSlash y := by
  induction x with
  | nil => simp [splitSlash]
  | cons c rest ih =>
    simp only [List.cons_append, splitSlash, List.append_eq]
    by_cases hc : c = '/'
    · simp [hc, ih]
    · rw [if_neg hc, if_neg hc, ih]
      rcases hr : splitSlash rest with _ | ⟨s, ss⟩
      · exact absurd hr (splitSlash_ne_nil rest)
      · simp

theorem splitSlash_no_slash (l : List Char) (h : '/' ∉ l) : splitSlash l = [l] := by
  induction l with
  | nil => rfl
  | cons c rest ih =>
    have hc : ¬(c = '/') := fun hh => h (hh ▸ List.mem_cons_self c rest)
    rw [splitSlash, if_neg hc, ih (fun hh => h (List.mem_cons_of_mem _ hh))]

theorem cleanStack_append (r : Bool) (out : List (List Char)) (l1 l2 : List (List Char)) :
    cleanStack r out (l1 ++ l2) = cleanStack r (cleanStack r out l1) l2 := by
  induction l1 generalizing out with
  | nil => rfl
  | cons s rest ih =>
    simp only [List.cons_append, cleanStack]
    exact ih _

theorem cleanStep_push (r : Bool) (out : List (List Char)) (s : List Char)
    (h0 : s ≠ []) (h1 : s ≠ ['.']) (h2 : s ≠ ['.', '.']) :
    cleanStep r out s = s :: out := by
  unfold cleanStep
  rw [if_neg (by rintro (h | h) <;> [exact h0 h; exact h1 h]), if_neg h2]

theorem joinSegs_cons_cons (s t : List Char) (l : List (List Char)) :
    joinSegs (s :: t :: l) = s ++ '/' :: joinSegs (t :: l) := rfl

theorem joinSegs_append_single (l : List (List Char)) (b : List Char) (h : l ≠ []) :
    joinSegs (l ++ [b]) = joinSegs l ++ '/' :: b := by
  induction l with
  | nil => exact absurd rfl h
  | cons s rest ih =>
    cases rest with
    | nil => rfl
    | cons t ts =>
      simp only [List.cons_append]
      simp only [List.cons_append] at ih
      rw [joinSegs_cons_cons, ih (by simp), joinSegs_cons_cons]
      simp

theorem takeWhile_until_slash (u w : List Char) (hu : '/' ∉ u) :
    (u ++ '/' :: w).takeWhile (fun c => c ≠ '/') = u := by
  induction u with
  | nil => simp [List.takeWhile_cons]
  | cons a u ih =>
    have ha : a ≠ '/' := fun h => hu (h ▸ List.mem_cons_self a u)
    rw [List.cons_append, List.takeWhile_cons, if_pos (by simp [ha]),
      ih (fun h => hu (List.mem_cons_of_mem _ h))]

theorem takeWhile_all_no_slash (u : List Char) (hu : '/' ∉ u) :
    u.takeWhile (fun c => c ≠ '/') = u := by
  induction u with
  | nil => rfl
  | cons a u ih =>
    have ha : a ≠ '/' := fun h => hu (h ▸ List.mem_cons_self a u)
    rw [List.takeWhile_cons, if_pos (by simp [ha]),
      ih (fun h => hu (List.mem_cons_of_mem _ h))]

theorem lastSlashSeg_append (x b : List Char) (hs : '/' ∉ b) :
    lastSlashSeg (x ++ '/' :: b) = b := by
  unfold lastSlashSeg
  rw [List.reverse_append, List.reverse_cons, List.append_assoc, List.singleton_append]
  rw [takeWhile_until_slash b.reverse x.reverse (by simpa using hs)]
  exact List.reverse_reverse b

theorem lastSlashSeg_no_slash (b : List Char) (hs : '/' ∉ b) :
    lastSlashSeg b = b := by
  unfold lastSlashSeg
  rw [takeWhile_all_no_slash b.reverse (by simpa using hs)]
  exact List.reverse_reverse b

theorem dropTrailingSlashes_append (y b : List Char) (hb : b ≠ []) (hs : '/' ∉ b) :
    dropTrailingSlashes (y ++ b) = y ++ b := by
  unfold dropTrailingSlashes
  rcases hbr : b.reverse with _ | ⟨c, rest⟩
  · exact absurd (by simpa using congrArg List.reverse hbr) hb
  · have hc : c ∈ b := by
      rw [← List.mem_reverse, hbr]
      exact List.mem_cons_self c rest
    have hcs : ¬(c = '/') := fun h => hs (h ▸ hc)
    have hb2 : b = rest.reverse ++ [c] := by
      rw [← List.reverse_reverse b, hbr, List.reverse_cons]
    rw [List.reverse_append, hbr, List.cons_append, List.dropWhile_cons]
    rw [if_neg (by simp [hcs])]
    rw [List.reverse_cons, List.reverse_append, List.reverse_reverse]
    rw [hb2, ← List.append_assoc]

theorem goBase_mk_name (sb : List Char) (hne : sb ≠ []) (hsl : '/' ∉ sb) :
    goBase (String.mk sb) = String.mk sb := by
  have hsne : String.mk sb ≠ "" := by
    intro h
    exact hne (by simpa using congrArg String.data h)
  simp only [goBase, if_neg hsne]
  have hdrop : dropTrailingSlashes (String.mk sb).data = sb := by
    have := dropTrailingSlashes_append [] sb hne hsl
    simpa using this
  rw [hdrop, lastSlashSeg_no_slash sb hsl, if_neg hne]

theorem goBase_mk_concat (x sb : List Char) (hne : sb ≠ []) (hsl : '/' ∉ sb) :
    goBase (String.mk (x ++ '/' :: sb)) = String.mk sb := by
  have hsne : String.mk (x ++ '/' :: sb) ≠ "" := by
    intro h
    have := congrArg String.data h
    simp at this
  simp only [goBase, if_neg hsne]
  have hdrop : dropTrailingSlashes (String.mk (x ++ '/' :: sb)).data = x ++ '/' :: sb := by
    have := dropTrailingSlashes_append (x ++ ['/']) sb hne hsl
    simpa using this
  rw [hdrop, lastSlashSeg_append x sb hsl, if_neg hne]

theorem goClean_regular (b : String) (hne : b.data ≠ []) (hsl : '/' ∉ b.data)
    (h1 : b.data ≠ ['.']) (h2 : b.data ≠ ['.', '.']) :
    goClean b = b := by
  have hroot : isRooted b = false := by
    unfold isRooted
    cases hb : b.data with
    | nil => rfl
    | cons c rest =>
      have hc : ¬(c = '/') := fun h => hsl (by rw [hb]; exact h ▸ List.mem_cons_self c rest)
      simp [hc]
  simp only [goClean, hroot, Bool.false_eq_true, if_false]
  rw [splitSlash_no_slash b.data hsl]
  rw [show cleanStack false [] [b.data] = cleanStep false [] b.data from rfl]
  rw [cleanStep_push false [] b.data hne h1 h2]
  simp only [List.reverse_cons, List.reverse_nil, List.nil_append, joinSegs]
  rw [if_neg hne]

theorem goClean_join_parts (d b : String) (hne : b.data ≠ []) (hsl : '/' ∉ b.data)
    (h1 : b.data ≠ ['.']) (h2 : b.data ≠ ['.', '.']) :
    goBase (goClean (d ++ "/" ++ b)) = b := by
  have hdata : (d ++ "/" ++ b).data = d.data ++ '/' :: b.data := by
    rw [String.data_append, String.data_append]
    simp
  simp only [goClean, hdata]
  rw [splitSlash_append, splitSlash_no_slash b.data hsl, cleanStack_append]
  rw [show ∀ o, cleanStack (isRooted (d ++ "/" ++ b)) o [b.data] =
        cleanStep (isRooted (d ++ "/" ++ b)) o b.data from fun o => rfl]
  rw [cleanStep_push _ _ b.data hne h1 h2, List.reverse_cons]
  rcases hT : (cleanStack (isRooted (d ++ "/" ++ b)) [] (splitSlash d.data)).reverse
    with _ | ⟨z, zs⟩
  · simp only [List.nil_append]
    rw [show joinSegs [b.data] = b.data from rfl]
    cases hr : isRooted (d ++ "/" ++ b)
    · simp only [Bool.false_eq_true, if_false, if_neg hne]
      rw [goBase_mk_name b.data hne hsl]
    · simp only [if_true]
      have := goBase_mk_concat [] b.data hne hsl
      rw [List.nil_append] at this
      rw [this]
  · rw [joinSegs_append_single (z :: zs) b.data (by simp)]
    cases hr : isRooted (d ++ "/" ++ b)
    · simp only [Bool.false_eq_true, if_false]
      rw [if_neg (by simp)]
      rw [goBase_mk_concat (joinSegs (z :: zs)) b.data hne hsl]
    · simp only [if_true]
      have := goBase_mk_concat ('/' :: joinSegs (z :: zs)) b.data hne hsl
      rw [List.cons_append] at this
      rw [this]

theorem goBase_goJoin (d b : String) (hne : b.data ≠ []) (hsl : '/' ∉ b.data)
    (h1 : b.data ≠ ['.']) (h2 : b.data ≠ ['.', '.']) :
    goBase (goJoin d b) = b := by
  have hbne : b ≠ "" := by
    intro h
    rw [h] at hne
    exact hne rfl
  by_cases hd : d = ""
  · rw [goJoin, if_neg (fun hc => hbne hc.2), if_pos hd]
    rw [goClean_regular b hne hsl h1 h2]
    have := goBase_mk_name b.data hne hsl
    rwa [string_mk_data b] at this
  · rw [goJoin, if_neg (fun hc => hbne hc.2), if_neg hd]
    exact goClean_join_parts d b hne hsl h1 h2

theorem goBase_shape (p : String) :
    goBase p = "." ∨ goBase p = "/" ∨
    ((goBase p).data ≠ [] ∧ '/' ∉ (goBase p).data) := by
  simp only [goBase]
  split
  · exact Or.inl rfl
  · split
    · exact Or.inr (Or.inl rfl)
    · rename_i hlast
      right
      right
      refine ⟨by simpa using hlast, ?_⟩
      intro hmem
      have hm2 : '/' ∈ lastSlashSeg (dropTrailingSlashes p.data) := by simpa using hmem
      unfold lastSlashSeg at hm2
      rw [List.mem_reverse] at hm2
      have hm3 := List.mem_takeWhile_imp hm2
      simp at hm3

/-- C3: with Output Directory and Serve Root the same directory, a POST
`/upload` storing a part named `file` whose declared filename has an
ordinary base name (not `.`, `..` or `/`; the environment granting the
create and copy) answers 302, and a following GET `/download` with `p` set
to that base name streams back exactly the uploaded bytes with a
`content-disposition` attachment filename equal to that base name. -/
theorem upload_download_roundtrip
    (dir : String) (fs : FileSystem) (q : MPart) (tr : Bool)
    (hq : q.formName = "file")
    (hcopy : q.copyErr = none)
    (hcreate : goJoin dir (goBase q.fileName) ∉ fs.createFails)
    (h1 : goBase q.fileName ≠ ".")
    (h2 : goBase q.fileName ≠ "..")
    (h3 : goBase q.fileName ≠ "/") :
    (handleUploadPost dir fs (some ⟨[q], tr⟩)).1 = HandlerResult.ok (httpRedirect "/" 302) ∧
    handleDownloadGet dir (handleUploadPost dir fs (some ⟨[q], tr⟩)).2
        [("p", [goBase q.fileName])] =
      { status := 200
        headers := [("content-type", "application/octet-stream"),
                    ("content-disposition",
                      "attachment; filename=\"" ++ goBase q.fileName ++ "\"")]
        body := Body.bytes q.body
        lateWriteHeader := some 204 } := by
  rcases goBase_shape q.fileName with hb | hb | ⟨hbne, hbsl⟩
  · exact absurd hb h1
  · exact absurd hb h3
  · have hdot : (goBase q.fileName).data ≠ ['.'] := by
      intro hh
      exact h1 (String.ext hh)
    have hdots : (goBase q.fileName).data ≠ ['.', '.'] := by
      intro hh
      exact h2 (String.ext hh)
    have hupload : handleUploadPost dir fs (some ⟨[q], tr⟩) =
        (HandlerResult.ok (httpRedirect "/" 302),
          setFile fs (goJoin dir (goBase q.fileName)) q.body) := by
      show uploadLoop dir fs [q] tr = _
      simp only [uploadLoop, readPart_store dir fs q hq hcreate hcopy]
    rw [hupload]
    refine ⟨rfl, ?_⟩
    have hquery : getQueryValueOrDefault [("p", [goBase q.fileName])] "p" "." =
        goBase q.fileName := by
      have hq2 : getQueryValueOrDefault [("p", [goBase q.fileName])] "p" "." =
          if goBase q.fileName = "" then "." else goBase q.fileName := rfl
      rw [hq2, if_neg (fun hh => hbne (by simpa using congrArg String.data hh))]
    simp only [handleDownloadGet, hquery, fsRead_setFile]
    rw [goBase_goJoin dir (goBase q.fileName) hbne hbsl hdot hdots]

/-- Witness for C3: `a/b/report.pdf` uploads as `report.pdf` into `files`
and downloads back byte-identically. -/
theorem upload_download_roundtrip_case :
    (handleUploadPost "files" ⟨[], [], []⟩
        (some ⟨[⟨"file", "a/b/report.pdf", [1, 2, 3], none⟩], false⟩)).1 =
      HandlerResult.ok (httpRedirect "/" 302) ∧
    handleDownloadGet "files"
        (handleUploadPost "files" ⟨[], [], []⟩
          (some ⟨[⟨"file", "a/b/report.pdf", [1, 2, 3], none⟩], false⟩)).2
        [("p", [goBase "a/b/report.pdf"])] =
      { status := 200
        headers := [("content-type", "application/octet-stream"),
                    ("content-disposition",
                      "attachment; filename=\"" ++ goBase "a/b/report.pdf" ++ "\"")]
        body := Body.bytes [1, 2, 3]
        lateWriteHeader := some 204 } :=
  upload_download_roundtrip "files" ⟨[], [], []⟩ ⟨"file", "a/b/report.pdf", [1, 2, 3], none⟩
    false rfl rfl (by decide) (by decide) (by decide) (by decide)
